import Mathlib

/-!
Verification of the VRT (VITA-49) packet codec: a shallow embedding of
`VrtPacket::parse` and `VrtPacket::serialize` from `src/types/packet.rs`,
together with models of the collaborator records (`Header`, `ClassId`,
`Trailer`, the error type) whose own sources are outside the packet module;
those are modelled from the specification's contracts for them.

Bytes are `Nat`s (a wire byte is always `< 256`; readers normalise with
`% 256` the way a `u8` load does). `usize` arithmetic that can wrap is made
explicit with `wsub`, and a Rust panic (out-of-range `split_at`, wrapped
index arithmetic) is an explicit result constructor `crash`.
-/

set_option maxHeartbeats 1600000

namespace Vrt

/-- Result of a nom-style streaming parser over a byte list: success with the
remaining input, an incomplete-input signal carrying a byte count
(`Err::Incomplete(Needed::new n)`), a hard parse error (`Err::Error`), or a
Rust panic (`crash`), used to model an out-of-bounds `split_at` after the
unchecked `usize` budget subtraction wraps. -/
inductive PR (α : Type) where
  | ok : List Nat → α → PR α
  | incomplete : Nat → PR α
  | err : PR α
  | crash : PR α
  deriving DecidableEq, Repr

/-- Sequencing of parse results, mirroring the `?` operator on nom results in
the source: any non-success outcome propagates unchanged. -/
def PR.bind {α β : Type} : PR α → (List Nat → α → PR β) → PR β
  | .ok i a, f => f i a
  | .incomplete n, _ => .incomplete n
  | .err, _ => .err
  | .crash, _ => .crash

/-- Wrapping subtraction on `usize` (release-mode Rust semantics of
`a -= b` when `b ≤ 2^64`): the debug build panics at the same inputs where
this wraps, and the wrapped value then makes `split_at` panic. -/
def wsub (a b : Nat) : Nat := (a + (18446744073709551616 - b)) % 18446744073709551616

/-- Big-endian bytes of a `u32` value (`u32::to_be_bytes`). -/
def u32Bytes (v : Nat) : List Nat :=
  [v / 16777216 % 256, v / 65536 % 256, v / 256 % 256, v % 256]

/-- Big-endian bytes of a `u64` value (`u64::to_be_bytes`). -/
def u64Bytes (v : Nat) : List Nat :=
  [v / 72057594037927936 % 256, v / 281474976710656 % 256,
   v / 1099511627776 % 256, v / 4294967296 % 256,
   v / 16777216 % 256, v / 65536 % 256, v / 256 % 256, v % 256]

/-- The `u32` read big-endian from the first four bytes of a list. -/
def beU32 (i : List Nat) : Nat :=
  (i.getD 0 0 % 256) * 16777216 + (i.getD 1 0 % 256) * 65536 +
    (i.getD 2 0 % 256) * 256 + i.getD 3 0 % 256

/-- The `u64` read big-endian from the first eight bytes of a list. -/
def beU64 (i : List Nat) : Nat :=
  (i.getD 0 0 % 256) * 72057594037927936 + (i.getD 1 0 % 256) * 281474976710656 +
    (i.getD 2 0 % 256) * 1099511627776 + (i.getD 3 0 % 256) * 4294967296 +
    (i.getD 4 0 % 256) * 16777216 + (i.getD 5 0 % 256) * 65536 +
    (i.getD 6 0 % 256) * 256 + i.getD 7 0 % 256

/-- `nom::number::streaming::be_u32`: needs four bytes, else Incomplete with
the number of missing bytes. -/
def beU32p (i : List Nat) : PR Nat :=
  if i.length < 4 then .incomplete (4 - i.length) else .ok (i.drop 4) (beU32 i)

/-- `nom::number::streaming::be_u64`: needs eight bytes, else Incomplete with
the number of missing bytes. -/
def beU64p (i : List Nat) : PR Nat :=
  if i.length < 8 then .incomplete (8 - i.length) else .ok (i.drop 8) (beU64 i)

/-- Modelled from the spec: the VRT packet-type discriminant carried in the
header, distinguishing the two data-packet-with-stream-identifier variants
(the source matches on `PktType::IfDataWithStream | PktType::ExtDataWithStream`)
from the other kinds. -/
inductive PktType where
  | IfDataWithoutStream
  | IfDataWithStream
  | ExtDataWithoutStream
  | ExtDataWithStream
  | Context
  deriving DecidableEq, Repr

/-- Modelled from the spec: the integer-seconds timestamp kind in the header;
the field is present on the wire unless the kind is `None`. -/
inductive Tsi where
  | None
  | Utc
  | Gps
  | Other
  deriving DecidableEq, Repr

/-- Modelled from the spec: the fractional-seconds timestamp kind in the
header; the field is present on the wire unless the kind is `None`. -/
inductive Tsf where
  | None
  | SampleCount
  | RealTime
  | FreeRunning
  deriving DecidableEq, Repr

/-- Modelled from the spec: the crate error type used by `serialize`.
`BufferFull` is the buffer-too-small error named in the source; the failed
`usize → u16` conversion of the word count converts into the size-overflow
error. -/
inductive Error where
  | BufferFull
  | SizeOverflow
  deriving DecidableEq, Repr

/-- Modelled from the spec: the Header collaborator, a fixed 4-byte record
carrying `packet_type`, flag `c` (class id present), flag `t` (trailer
present), the two timestamp kinds, and `packet_size` — the total packet
length as a count of 4-byte words including the header word itself
(a `u16`, so always `< 65536` in the source). -/
structure Header where
  packet_type : PktType
  c : Bool
  t : Bool
  tsi : Tsi
  tsf : Tsf
  packet_size : Nat
  deriving DecidableEq, Repr

/-- Modelled from the spec: the ClassId collaborator, a fixed 8-byte record;
its 64 bits of content are kept as one number. -/
structure ClassId where
  words : Nat
  deriving DecidableEq, Repr

/-- Modelled from the spec: the Trailer collaborator, a fixed 4-byte record;
its 32 bits of content are kept as one number. -/
structure Trailer where
  words : Nat
  deriving DecidableEq, Repr

def PktType.toNat : PktType → Nat
  | .IfDataWithoutStream => 0
  | .IfDataWithStream => 1
  | .ExtDataWithoutStream => 2
  | .ExtDataWithStream => 3
  | .Context => 4

def pktTypeOfNat : Nat → Option PktType
  | 0 => some .IfDataWithoutStream
  | 1 => some .IfDataWithStream
  | 2 => some .ExtDataWithoutStream
  | 3 => some .ExtDataWithStream
  | 4 => some .Context
  | _ => none

def Tsi.toNat : Tsi → Nat
  | .None => 0
  | .Utc => 1
  | .Gps => 2
  | .Other => 3

def tsiOfNat : Nat → Tsi
  | 0 => .None
  | 1 => .Utc
  | 2 => .Gps
  | _ => .Other

def Tsf.toNat : Tsf → Nat
  | .None => 0
  | .SampleCount => 1
  | .RealTime => 2
  | .FreeRunning => 3

def tsfOfNat : Nat → Tsf
  | 0 => .None
  | 1 => .SampleCount
  | 2 => .RealTime
  | _ => .FreeRunning

/-- Modelled from the spec: the Header's 4-byte wire form. The spec leaves the
bit layout to the collaborator, so this is one concrete injective packing of
the fields the codec contract names: type nibble, `c` and `t` flag bits,
timestamp kinds, and the 16-bit big-endian `packet_size`. -/
def Header.toBytes (h : Header) : List Nat :=
  [h.packet_type.toNat * 16 + (if h.c then 8 else 0) + (if h.t then 4 else 0),
   h.tsi.toNat * 64 + h.tsf.toNat * 16,
   h.packet_size / 256 % 256, h.packet_size % 256]

/-- Modelled from the spec: `Header::parse`, a streaming parse of the fixed
4-byte header; insufficient input is Incomplete, an undefined packet-type
discriminant is a hard parse error. -/
def Header.parse (i : List Nat) : PR Header :=
  if i.length < 4 then .incomplete (4 - i.length)
  else
    match pktTypeOfNat (i.getD 0 0 % 256 / 16) with
    | none => .err
    | some pt =>
        .ok (i.drop 4)
          { packet_type := pt
            c := decide (i.getD 0 0 % 256 / 8 % 2 = 1)
            t := decide (i.getD 0 0 % 256 / 4 % 2 = 1)
            tsi := tsiOfNat (i.getD 1 0 % 256 / 64)
            tsf := tsfOfNat (i.getD 1 0 % 256 / 16 % 4)
            packet_size := (i.getD 2 0 % 256) * 256 + i.getD 3 0 % 256 }

/-- Modelled from the spec: the ClassId's 8-byte wire form. -/
def ClassId.toBytes (c : ClassId) : List Nat := u64Bytes c.words

/-- Modelled from the spec: `ClassId::parse`, a streaming parse of the fixed
8-byte class identifier. -/
def ClassId.parse (i : List Nat) : PR ClassId :=
  if i.length < 8 then .incomplete (8 - i.length) else .ok (i.drop 8) ⟨beU64 i⟩

/-- Modelled from the spec: the Trailer's 4-byte wire form. -/
def Trailer.toBytes (t : Trailer) : List Nat := u32Bytes t.words

/-- Modelled from the spec: `Trailer::parse`, a streaming parse of the fixed
4-byte trailer. -/
def Trailer.parse (i : List Nat) : PR Trailer :=
  if i.length < 4 then .incomplete (4 - i.length) else .ok (i.drop 4) ⟨beU32 i⟩

/-- The VRT packet aggregate (`struct VrtPacket` in the source): header plus
the optional stream id, class id, timestamps and trailer, and the payload
byte span. -/
structure VrtPacket where
  header : Header
  stream_id : Option Nat
  class_id : Option ClassId
  tsi : Option Nat
  tsf : Option Nat
  payload : List Nat
  trailer : Option Trailer
  deriving DecidableEq, Repr

/-- The stream-identifier step of `VrtPacket::parse`: a 4-byte stream id is
consumed, and its width subtracted from the running payload budget, exactly
when the packet type is one of the two with-stream data variants. -/
def parseStreamField (pt : PktType) (pl : Nat) (i : List Nat) : PR (Option Nat × Nat) :=
  match pt with
  | .IfDataWithStream | .ExtDataWithStream =>
      (beU32p i).bind fun i sid => .ok i (some sid, wsub pl 4)
  | _ => .ok i (none, pl)

/-- The class-identifier step of `VrtPacket::parse`: the 8-byte class id is
consumed, and its width subtracted from the budget, exactly when `header.c`. -/
def parseClassField (c : Bool) (pl : Nat) (i : List Nat) : PR (Option ClassId × Nat) :=
  if c then (ClassId.parse i).bind fun i cid => .ok i (some cid, wsub pl 8)
  else .ok i (none, pl)

/-- The integer-seconds timestamp step of `VrtPacket::parse`: 4 bytes are
consumed, and subtracted from the budget, unless `header.tsi` is `None`. -/
def parseTsiField (k : Tsi) (pl : Nat) (i : List Nat) : PR (Option Nat × Nat) :=
  if k = Tsi.None then .ok i (none, pl)
  else (beU32p i).bind fun i v => .ok i (some v, wsub pl 4)

/-- The fractional-seconds timestamp step of `VrtPacket::parse`: 8 bytes are
consumed, and subtracted from the budget, unless `header.tsf` is `None`. -/
def parseTsfField (k : Tsf) (pl : Nat) (i : List Nat) : PR (Option Nat × Nat) :=
  if k = Tsf.None then .ok i (none, pl)
  else (beU64p i).bind fun i v => .ok i (some v, wsub pl 8)

/-- The trailer step of `VrtPacket::parse`: the 4-byte trailer is parsed from
the bytes after the payload exactly when `header.t`. -/
def parseTrailerField (t : Bool) (i : List Nat) : PR (Option Trailer) :=
  if t then (Trailer.parse i).bind fun i tr => .ok i (some tr)
  else .ok i none

/-- `VrtPacket::parse`: parse the header; signal Incomplete when fewer bytes
are available than the header's declared `packet_size * 4`; subtract the
header word (and the trailer word when `header.t`) from the payload budget;
consume stream id, class id, tsi, tsf in order, each subtracting its width;
split the payload off at the remaining budget (`slice::split_at`, a panic —
`crash` — when the wrapped budget exceeds the input); then parse the trailer
when `header.t`. -/
def VrtPacket.parse (input : List Nat) : PR VrtPacket :=
  (Header.parse input).bind fun i header =>
  let expected_size := header.packet_size * 4
  let actual_size := i.length + 4
  if actual_size < expected_size then .incomplete expected_size
  else
    let pl0 := wsub expected_size 4
    let pl1 := if header.t then wsub pl0 4 else pl0
    (parseStreamField header.packet_type pl1 i).bind fun i sp =>
    (parseClassField header.c sp.2 i).bind fun i cp =>
    (parseTsiField header.tsi cp.2 i).bind fun i ip =>
    (parseTsfField header.tsf ip.2 i).bind fun i fp =>
    let payload_len := fp.2
    if payload_len ≤ i.length then
      let data_payload := i.take payload_len
      let i2 := i.drop payload_len
      (parseTrailerField header.t i2).bind fun i3 trailer =>
      .ok i3
        { header := header
          stream_id := sp.1
          class_id := cp.1
          tsi := ip.1
          tsf := fp.1
          payload := data_payload
          trailer := trailer }
    else .crash

/-- One bounds-checked field write of `serialize`: the source pattern
`if buffer.len() < offset + width { return Err(Error::BufferFull) }` followed
by `copy_from_slice` and `offset += width` (the collaborator `serialize`
calls on the sub-buffer `&mut buffer[offset..]` perform the same check
against their fixed widths). `out` is the bytes written so far. -/
def writeField (cap off : Nat) (bytes out : List Nat) : Except Error (Nat × List Nat) :=
  if cap < off + bytes.length then .error Error.BufferFull
  else .ok (off + bytes.length, out ++ bytes)

/-- The body pass of `VrtPacket::serialize`: header placeholder, then stream
id, class id, tsi, tsf, payload, trailer, each conditional on the optional
value being present and each bounds-checked against the buffer capacity. -/
def VrtPacket.serializeCore (p : VrtPacket) (cap : Nat) : Except Error (Nat × List Nat) :=
  match writeField cap 0 p.header.toBytes [] with
  | .error e => .error e
  | .ok s1 =>
  match (match p.stream_id with
         | some sid => writeField cap s1.1 (u32Bytes sid) s1.2
         | none => Except.ok s1) with
  | .error e => .error e
  | .ok s2 =>
  match (match p.class_id with
         | some cid => writeField cap s2.1 cid.toBytes s2.2
         | none => Except.ok s2) with
  | .error e => .error e
  | .ok s3 =>
  match (match p.tsi with
         | some v => writeField cap s3.1 (u32Bytes v) s3.2
         | none => Except.ok s3) with
  | .error e => .error e
  | .ok s4 =>
  match (match p.tsf with
         | some v => writeField cap s4.1 (u64Bytes v) s4.2
         | none => Except.ok s4) with
  | .error e => .error e
  | .ok s5 =>
  match writeField cap s5.1 p.payload s5.2 with
  | .error e => .error e
  | .ok s6 =>
  match (match p.trailer with
         | some tr => writeField cap s6.1 tr.toBytes s6.2
         | none => Except.ok s6) with
  | .error e => .error e
  | .ok s7 => .ok s7

/-- `VrtPacket::serialize`: run the body pass, then patch the header — set
`self.header.packet_size = (offset / 4).try_into()?` (an error when the word
count does not fit a `u16`, leaving the packet unmutated) and rewrite the
4-byte header at offset 0. The returned pair is the `Result` together with
the packet as left by the call (`self` is `&mut`). The bytes component of a
success is the final content of the written prefix of the buffer. -/
def VrtPacket.serialize (p : VrtPacket) (cap : Nat) :
    Except Error (Nat × List Nat) × VrtPacket :=
  match p.serializeCore cap with
  | .error e => (.error e, p)
  | .ok s =>
    if s.1 / 4 < 65536 then
      let p2 : VrtPacket := { p with header := { p.header with packet_size := s.1 / 4 } }
      if cap < 4 then (.error Error.BufferFull, p2)
      else (.ok (s.1, p2.header.toBytes ++ s.2.drop 4), p2)
    else (.error Error.SizeOverflow, p)

/-- Wire width of an optional field: `w` when present, `0` when absent. -/
def optW {α : Type} (w : Nat) (o : Option α) : Nat :=
  match o with | some _ => w | none => 0

/-- Wire bytes of an optional field: its encoding when present, nothing when
absent. -/
def optBytes {α : Type} (f : α → List Nat) (o : Option α) : List Nat :=
  match o with | some x => f x | none => []

/-- Total number of bytes `serialize` writes for a packet: the 4-byte header
plus the width of each present optional field plus the payload. -/
def VrtPacket.totalBytes (p : VrtPacket) : Nat :=
  4 + optW 4 p.stream_id + optW 8 p.class_id + optW 4 p.tsi + optW 8 p.tsf
    + p.payload.length + optW 4 p.trailer

/-- The bytes `serialize` writes after the header word: each present optional
field big-endian, then the payload, then the trailer. -/
def VrtPacket.restBytes (p : VrtPacket) : List Nat :=
  optBytes u32Bytes p.stream_id
    ++ (optBytes ClassId.toBytes p.class_id
    ++ (optBytes u32Bytes p.tsi
    ++ (optBytes u64Bytes p.tsf
    ++ (p.payload
    ++ optBytes Trailer.toBytes p.trailer))))

/-- The byte string the body pass produces when the buffer is large enough:
header bytes, then each present optional field big-endian, then the payload,
then the trailer. -/
def VrtPacket.bodyBytes (p : VrtPacket) : List Nat :=
  p.header.toBytes ++ p.restBytes

/-- The packet `serialize` leaves behind on success: only the header's
`packet_size` is recomputed, as `totalBytes / 4`. -/
def VrtPacket.sized (p : VrtPacket) : VrtPacket :=
  { p with header := { p.header with packet_size := p.totalBytes / 4 } }

/-- Width on the wire of the stream-identifier field a packet type implies. -/
def ptW : PktType → Nat
  | .IfDataWithStream => 4
  | .ExtDataWithStream => 4
  | _ => 0

/-- Whether a packet type is one of the two stream-identified data variants. -/
def ptStream : PktType → Bool
  | .IfDataWithStream => true
  | .ExtDataWithStream => true
  | _ => false

/-- Wire width of the stream-identifier field the header declares. -/
def Header.streamW (h : Header) : Nat := ptW h.packet_type

/-- Wire width of the class-identifier field the header declares. -/
def Header.classW (h : Header) : Nat := if h.c then 8 else 0

/-- Wire width of the integer-seconds timestamp the header declares. -/
def Header.tsiW (h : Header) : Nat := if h.tsi = Tsi.None then 0 else 4

/-- Wire width of the fractional-seconds timestamp the header declares. -/
def Header.tsfW (h : Header) : Nat := if h.tsf = Tsf.None then 0 else 8

/-- Wire width of the trailer the header declares. -/
def Header.trailW (h : Header) : Nat := if h.t then 4 else 0

/-- Combined wire width of the four front optional fields the header
declares. -/
def Header.fieldsW (h : Header) : Nat := h.streamW + h.classW + h.tsiW + h.tsfW

/-- A header's declared size is consistent with its own flags: the declared
total covers the header word, the declared front optional fields and the
trailer. -/
def Header.sizeConsistent (h : Header) : Prop :=
  4 + h.fieldsW + h.trailW ≤ h.packet_size * 4

instance (h : Header) : Decidable h.sizeConsistent := by
  unfold Header.sizeConsistent; infer_instance

theorem wsub_of_le {a b : Nat} (hb : b ≤ a) (ha : a < 18446744073709551616) :
    wsub a b = a - b := by
  unfold wsub; omega

@[simp] theorem u32Bytes_length (v : Nat) : (u32Bytes v).length = 4 := rfl

@[simp] theorem u64Bytes_length (v : Nat) : (u64Bytes v).length = 8 := rfl

@[simp] theorem headerBytes_length (h : Header) : h.toBytes.length = 4 := rfl

@[simp] theorem classIdBytes_length (c : ClassId) : c.toBytes.length = 8 := rfl

@[simp] theorem trailerBytes_length (t : Trailer) : t.toBytes.length = 4 := rfl

theorem beU32_u32Bytes (v : Nat) (r : List Nat) (hv : v < 4294967296) :
    beU32 (u32Bytes v ++ r) = v := by
  simp only [u32Bytes, beU32, List.cons_append, List.nil_append, List.getD_cons_zero,
    List.getD_cons_succ]
  omega

theorem beU64_u64Bytes (v : Nat) (r : List Nat) (hv : v < 18446744073709551616) :
    beU64 (u64Bytes v ++ r) = v := by
  simp only [u64Bytes, beU64, List.cons_append, List.nil_append, List.getD_cons_zero,
    List.getD_cons_succ]
  omega

theorem drop4_u32Bytes (v : Nat) (r : List Nat) : (u32Bytes v ++ r).drop 4 = r := rfl

theorem drop8_u64Bytes (v : Nat) (r : List Nat) : (u64Bytes v ++ r).drop 8 = r := rfl

theorem pktTypeOfNat_toNat (pt : PktType) : pktTypeOfNat pt.toNat = some pt := by
  cases pt <;> rfl

theorem tsiOfNat_toNat (k : Tsi) : tsiOfNat k.toNat = k := by
  cases k <;> rfl

theorem tsfOfNat_toNat (k : Tsf) : tsfOfNat k.toNat = k := by
  cases k <;> rfl

theorem pktTypeToNat_le (pt : PktType) : pt.toNat ≤ 4 := by
  cases pt <;> simp [PktType.toNat]

theorem tsiToNat_le (k : Tsi) : k.toNat ≤ 3 := by
  cases k <;> simp [Tsi.toNat]

theorem tsfToNat_le (k : Tsf) : k.toNat ≤ 3 := by
  cases k <;> simp [Tsf.toNat]

/-- Parsing the modelled 4-byte header wire form recovers the header and
leaves exactly the trailing bytes. -/
theorem Header.parse_toBytes (h : Header) (r : List Nat) (hps : h.packet_size < 65536) :
    Header.parse (h.toBytes ++ r) = PR.ok r h := by
  obtain ⟨pt, c, t, ti, tf, ps⟩ := h
  have h0 : pt.toNat ≤ 4 := pktTypeToNat_le pt
  have h1 : ti.toNat ≤ 3 := tsiToNat_le ti
  have h2 : tf.toNat ≤ 3 := tsfToNat_le tf
  simp only [Header.toBytes, Header.parse, List.cons_append, List.nil_append,
    List.length_cons, List.getD_cons_zero, List.getD_cons_succ, List.drop_succ_cons,
    List.drop_zero]
  rw [if_neg (by omega)]
  have eb0 : (pt.toNat * 16 + (if c then 8 else 0) + (if t then 4 else 0)) % 256
      = pt.toNat * 16 + (if c then 8 else 0) + (if t then 4 else 0) := by
    split_ifs <;> omega
  have eb1 : (ti.toNat * 64 + tf.toNat * 16) % 256 = ti.toNat * 64 + tf.toNat * 16 := by
    omega
  have ept : (pt.toNat * 16 + (if c then 8 else 0) + (if t then 4 else 0)) / 16
      = pt.toNat := by
    split_ifs <;> omega
  have ec : decide ((pt.toNat * 16 + (if c then 8 else 0) + (if t then 4 else 0)) / 8 % 2 = 1)
      = c := by
    cases c <;> cases t <;> simp [decide_eq_false_iff_not] <;> omega
  have et : decide ((pt.toNat * 16 + (if c then 8 else 0) + (if t then 4 else 0)) / 4 % 2 = 1)
      = t := by
    cases c <;> cases t <;> simp [decide_eq_false_iff_not] <;> omega
  have eti : (ti.toNat * 64 + tf.toNat * 16) / 64 = ti.toNat := by omega
  have etf : (ti.toNat * 64 + tf.toNat * 16) / 16 % 4 = tf.toNat := by omega
  have hps2 : ps < 65536 := hps
  have eps : ps / 256 % 256 % 256 * 256 + ps % 256 % 256 = ps := by omega
  simp only [eb0, eb1, ept, ec, et, eti, etf, eps, pktTypeOfNat_toNat,
    tsiOfNat_toNat, tsfOfNat_toNat]

/-- Inversion of a successful header parse: the remainder is the input past
the 4 header bytes, and the declared size fits 16 bits. -/
theorem Header.parse_ok_inv {input i : List Nat} {h : Header}
    (hp : Header.parse input = PR.ok i h) :
    i = input.drop 4 ∧ h.packet_size < 65536 ∧ 4 ≤ input.length := by
  unfold Header.parse at hp
  split at hp
  · exact absurd hp (by simp)
  · split at hp
    · exact absurd hp (by simp)
    · injection hp with hi hh
      subst hi
      subst hh
      refine ⟨rfl, by simp only []; omega, by omega⟩

theorem parseStreamField_ok (pt : PktType) (pl : Nat) (i : List Nat)
    (hl : ptW pt ≤ i.length) (hw : ptW pt ≤ pl) (hb : pl < 18446744073709551616) :
    parseStreamField pt pl i
      = PR.ok (i.drop (ptW pt))
          (if ptStream pt then some (beU32 i) else none, pl - ptW pt) := by
  cases pt <;>
    simp only [parseStreamField, ptW, ptStream, beU32p, PR.bind, List.drop_zero,
      if_true, if_false, Nat.sub_zero, ite_true, ite_false] <;>
    try rfl
  all_goals
    simp only [ptW] at hl hw
    rw [if_neg (by omega), wsub_of_le hw hb]
    try rfl

theorem parseClassField_ok (c : Bool) (pl : Nat) (i : List Nat)
    (hl : (if c then 8 else 0) ≤ i.length) (hw : (if c then 8 else 0) ≤ pl)
    (hb : pl < 18446744073709551616) :
    parseClassField c pl i
      = PR.ok (i.drop (if c then 8 else 0))
          (if c then some ⟨beU64 i⟩ else none, pl - (if c then 8 else 0)) := by
  cases c
  · simp [parseClassField]
  · simp only [if_true, ite_true] at hl hw ⊢
    simp only [parseClassField, ClassId.parse, PR.bind, if_true, ite_true]
    rw [if_neg (by omega), wsub_of_le hw hb]
    try rfl

theorem parseTsiField_ok (k : Tsi) (pl : Nat) (i : List Nat)
    (hl : (if k = Tsi.None then 0 else 4) ≤ i.length)
    (hw : (if k = Tsi.None then 0 else 4) ≤ pl)
    (hb : pl < 18446744073709551616) :
    parseTsiField k pl i
      = PR.ok (i.drop (if k = Tsi.None then 0 else 4))
          (if k = Tsi.None then none else some (beU32 i),
           pl - (if k = Tsi.None then 0 else 4)) := by
  by_cases hk : k = Tsi.None
  · simp [parseTsiField, hk]
  · simp only [hk, if_neg, ite_false] at hl hw ⊢
    simp only [parseTsiField, beU32p, PR.bind, if_neg hk]
    rw [if_neg (by omega), wsub_of_le hw hb]
    try rfl

theorem parseTsfField_ok (k : Tsf) (pl : Nat) (i : List Nat)
    (hl : (if k = Tsf.None then 0 else 8) ≤ i.length)
    (hw : (if k = Tsf.None then 0 else 8) ≤ pl)
    (hb : pl < 18446744073709551616) :
    parseTsfField k pl i
      = PR.ok (i.drop (if k = Tsf.None then 0 else 8))
          (if k = Tsf.None then none else some (beU64 i),
           pl - (if k = Tsf.None then 0 else 8)) := by
  by_cases hk : k = Tsf.None
  · simp [parseTsfField, hk]
  · simp only [hk, if_neg, ite_false] at hl hw ⊢
    simp only [parseTsfField, beU64p, PR.bind, if_neg hk]
    rw [if_neg (by omega), wsub_of_le hw hb]
    try rfl

theorem parseTrailerField_ok (t : Bool) (i : List Nat)
    (hl : (if t then 4 else 0) ≤ i.length) :
    parseTrailerField t i
      = PR.ok (i.drop (if t then 4 else 0))
          (if t then some ⟨beU32 i⟩ else none) := by
  cases t
  · simp [parseTrailerField]
  · simp only [if_true, ite_true] at hl ⊢
    simp only [parseTrailerField, Trailer.parse, PR.bind, if_true, ite_true]
    rw [if_neg (by omega)]
    try rfl

/-- The packet a flag-consistent successful parse yields, written out
explicitly: `i` is the input just past the 4 header bytes, and each field is
read at the offset the preceding present fields dictate. -/
def expectedPacket (h : Header) (i : List Nat) : VrtPacket :=
  { header := h
    stream_id := if ptStream h.packet_type then some (beU32 i) else none
    class_id := if h.c then some ⟨beU64 (i.drop h.streamW)⟩ else none
    tsi := if h.tsi = Tsi.None then none
           else some (beU32 ((i.drop h.streamW).drop h.classW))
    tsf := if h.tsf = Tsf.None then none
           else some (beU64 (((i.drop h.streamW).drop h.classW).drop h.tsiW))
    payload := ((((i.drop h.streamW).drop h.classW).drop h.tsiW).drop h.tsfW).take
      (h.packet_size * 4 - 4 - h.trailW - h.streamW - h.classW - h.tsiW - h.tsfW)
    trailer := if h.t then
        some ⟨beU32 (((((i.drop h.streamW).drop h.classW).drop h.tsiW).drop h.tsfW).drop
          (h.packet_size * 4 - 4 - h.trailW - h.streamW - h.classW - h.tsiW - h.tsfW))⟩
      else none }

/-- Master characterization of a successful `VrtPacket::parse`: when the
header parses, its declared size is consistent with its own flags, and that
many bytes are available, the parse consumes exactly `packet_size * 4` bytes
and yields the explicitly-described packet. -/
theorem parse_ok_char (input i : List Nat) (h : Header)
    (hp : Header.parse input = PR.ok i h)
    (hc : h.sizeConsistent)
    (ha : h.packet_size * 4 ≤ i.length + 4) :
    VrtPacket.parse input
      = PR.ok (input.drop (h.packet_size * 4)) (expectedPacket h i) := by
  obtain ⟨hi, hps, hlen⟩ := Header.parse_ok_inv hp
  have hc2 : 4 + (ptW h.packet_type + h.classW + h.tsiW + h.tsfW) + h.trailW
      ≤ h.packet_size * 4 := by
    simpa [Header.sizeConsistent, Header.fieldsW, Header.streamW] using hc
  have hw1 : ptW h.packet_type ≤ 4 := by
    cases h.packet_type <;> simp [ptW]
  have hw2 : h.classW ≤ 8 := by unfold Header.classW; split <;> omega
  have hw3 : h.tsiW ≤ 4 := by unfold Header.tsiW; split <;> omega
  have hw4 : h.tsfW ≤ 8 := by unfold Header.tsfW; split <;> omega
  have hw5 : h.trailW ≤ 4 := by unfold Header.trailW; split <;> omega
  have h64 : h.packet_size * 4 < 18446744073709551616 := by omega
  have hcw : (if h.c = true then 8 else 0) = h.classW := rfl
  have hiw : (if h.tsi = Tsi.None then 0 else 4) = h.tsiW := rfl
  have hfw : (if h.tsf = Tsf.None then 0 else 8) = h.tsfW := rfl
  have htw : (if h.t = true then 4 else 0) = h.trailW := rfl
  unfold VrtPacket.parse
  rw [hp]
  simp only [PR.bind]
  rw [if_neg (by omega)]
  rw [wsub_of_le (by omega) h64]
  have htr : (if h.t = true then wsub (h.packet_size * 4 - 4) 4 else h.packet_size * 4 - 4)
      = h.packet_size * 4 - 4 - h.trailW := by
    split
    · rename_i ht
      have h5 : h.trailW = 4 := by simp [Header.trailW, ht]
      rw [wsub_of_le (by omega) (by omega)]
      omega
    · rename_i ht
      have h5 : h.trailW = 0 := by simp [Header.trailW, ht]
      omega
  rw [htr]
  rw [parseStreamField_ok _ _ _ (by omega) (by omega) (by omega)]
  simp only [PR.bind]
  rw [parseClassField_ok _ _ _
    (by rw [hcw]; simp only [List.length_drop]; omega)
    (by rw [hcw]; omega) (by omega)]
  simp only [PR.bind, hcw]
  rw [parseTsiField_ok _ _ _
    (by rw [hiw]; simp only [List.length_drop]; omega)
    (by rw [hiw]; omega) (by omega)]
  simp only [PR.bind, hiw]
  rw [parseTsfField_ok _ _ _
    (by rw [hfw]; simp only [List.length_drop]; omega)
    (by rw [hfw]; omega) (by omega)]
  simp only [PR.bind, hfw]
  rw [if_pos (by simp only [List.length_drop]; omega)]
  rw [parseTrailerField_ok _ _ (by rw [htw]; simp only [List.length_drop]; omega), htw]
  simp only [PR.bind, expectedPacket, Header.streamW]
  subst hi
  simp only [List.drop_drop]
  congr 1
  have hidx : 4 + ptW h.packet_type + h.classW + h.tsiW + h.tsfW +
      (h.packet_size * 4 - 4 - h.trailW - ptW h.packet_type - h.classW - h.tsiW - h.tsfW)
      + h.trailW = h.packet_size * 4 := by omega
  rw [hidx]

theorem writeField_ok (cap off : Nat) (bytes out : List Nat)
    (h : off + bytes.length ≤ cap) :
    writeField cap off bytes out = Except.ok (off + bytes.length, out ++ bytes) := by
  unfold writeField
  rw [if_neg (by omega)]

theorem writeField_err (cap off : Nat) (bytes out : List Nat)
    (h : cap < off + bytes.length) :
    writeField cap off bytes out = Except.error Error.BufferFull := by
  unfold writeField
  rw [if_pos h]

theorem totalBytes_ge4 (p : VrtPacket) : 4 ≤ p.totalBytes := by
  unfold VrtPacket.totalBytes
  omega

/-- The body pass succeeds exactly when the buffer can hold the whole
serialized form, and then writes `totalBytes` bytes, namely `bodyBytes`. -/
theorem serializeCore_ok (p : VrtPacket) (cap : Nat) (hcap : p.totalBytes ≤ cap) :
    p.serializeCore cap = Except.ok (p.totalBytes, p.bodyBytes) := by
  obtain ⟨hd, sid, cid, ti, tf, pl, tr⟩ := p
  simp only [VrtPacket.totalBytes] at hcap
  rcases sid with _ | sid <;> rcases cid with _ | cid <;> rcases ti with _ | ti <;>
    rcases tf with _ | tf <;> rcases tr with _ | tr <;> simp only [optW] at hcap
  all_goals
    simp only [VrtPacket.serializeCore, VrtPacket.totalBytes, VrtPacket.bodyBytes,
      VrtPacket.restBytes, optW, optBytes, writeField, headerBytes_length, u32Bytes_length,
      u64Bytes_length, classIdBytes_length, trailerBytes_length, List.length_append]
    repeat' first
      | rw [if_neg (by omega)]
      | dsimp only
    simp only [Prod.mk.injEq, Except.ok.injEq, List.append_assoc, List.nil_append,
      List.append_nil, and_true, true_and]
    try omega

/-- The body pass fails with `BufferFull` exactly when the buffer cannot hold
the whole serialized form. -/
theorem serializeCore_small (p : VrtPacket) (cap : Nat) (hcap : cap < p.totalBytes) :
    p.serializeCore cap = Except.error Error.BufferFull := by
  obtain ⟨hd, sid, cid, ti, tf, pl, tr⟩ := p
  simp only [VrtPacket.totalBytes] at hcap
  rcases sid with _ | sid <;> rcases cid with _ | cid <;> rcases ti with _ | ti <;>
    rcases tf with _ | tf <;> rcases tr with _ | tr <;> simp only [optW] at hcap
  all_goals
    simp only [VrtPacket.serializeCore, writeField, headerBytes_length, u32Bytes_length,
      u64Bytes_length, classIdBytes_length, trailerBytes_length, List.length_append]
    repeat' first
      | rfl
      | (exfalso; omega)
      | split_ifs
      | dsimp only

/-- Full characterization of `VrtPacket::serialize`: `BufferFull` on an
undersized buffer, `SizeOverflow` when the word count does not fit a `u16`
(with the packet unmutated in both error cases), and otherwise success
writing `totalBytes` bytes whose content is the body of the size-patched
packet, which is also the packet state left behind. -/
theorem serialize_char (p : VrtPacket) (cap : Nat) :
    p.serialize cap =
      if cap < p.totalBytes then (Except.error Error.BufferFull, p)
      else if p.totalBytes / 4 < 65536 then
        (Except.ok (p.totalBytes, p.sized.bodyBytes), p.sized)
      else (Except.error Error.SizeOverflow, p) := by
  have h4 := totalBytes_ge4 p
  by_cases hcap : cap < p.totalBytes
  · rw [if_pos hcap]
    unfold VrtPacket.serialize
    rw [serializeCore_small p cap hcap]
  · rw [if_neg hcap]
    unfold VrtPacket.serialize
    rw [serializeCore_ok p cap (by omega)]
    dsimp only
    by_cases hfit : p.totalBytes / 4 < 65536
    · rw [if_pos hfit, if_pos hfit, if_neg (by omega)]
      rfl
    · rw [if_neg hfit, if_neg hfit]

theorem parseStreamField_built (pt : PktType) (pl : Nat) (o : Option Nat) (rest : List Nat)
    (hc : o.isSome = ptStream pt)
    (hrange : ∀ v, o = some v → v < 4294967296)
    (hw : optW 4 o ≤ pl)
    (hb : pl < 18446744073709551616) :
    parseStreamField pt pl (optBytes u32Bytes o ++ rest)
      = PR.ok rest (o, pl - optW 4 o) := by
  rcases o with _ | v
  · have hs : ptStream pt = false := by simpa using hc.symm
    cases pt <;> simp_all [parseStreamField, ptStream, optW, optBytes, List.nil_append]
  · have hs : ptStream pt = true := by simpa using hc.symm
    have hv := hrange v rfl
    have hw4 : 4 ≤ pl := by simpa [optW] using hw
    cases pt <;> first
      | (simp only [parseStreamField, beU32p, optW, optBytes, List.length_append,
           u32Bytes_length, PR.bind]
         rw [if_neg (by omega), wsub_of_le hw4 hb, beU32_u32Bytes v rest hv, drop4_u32Bytes])
      | simp [ptStream] at hs

theorem parseClassField_built (c : Bool) (pl : Nat) (o : Option ClassId) (rest : List Nat)
    (hc : o.isSome = c)
    (hrange : ∀ x, o = some x → x.words < 18446744073709551616)
    (hw : optW 8 o ≤ pl)
    (hb : pl < 18446744073709551616) :
    parseClassField c pl (optBytes ClassId.toBytes o ++ rest)
      = PR.ok rest (o, pl - optW 8 o) := by
  rcases o with _ | x
  · have : c = false := by simpa using hc.symm
    subst this
    simp [parseClassField, optW, optBytes, List.nil_append]
  · have : c = true := by simpa using hc.symm
    subst this
    have hx := hrange x rfl
    have hw8 : 8 ≤ pl := by simpa [optW] using hw
    simp only [parseClassField, ClassId.parse, ClassId.toBytes, PR.bind, optW, optBytes,
      List.length_append, u64Bytes_length, if_true, ite_true]
    rw [if_neg (by omega), wsub_of_le hw8 hb]
    rw [show (u64Bytes x.words ++ rest).drop 8 = rest from rfl]
    rw [beU64_u64Bytes x.words rest hx]

theorem parseTsiField_built (k : Tsi) (pl : Nat) (o : Option Nat) (rest : List Nat)
    (hc : o.isSome = true ↔ k ≠ Tsi.None)
    (hrange : ∀ v, o = some v → v < 4294967296)
    (hw : optW 4 o ≤ pl)
    (hb : pl < 18446744073709551616) :
    parseTsiField k pl (optBytes u32Bytes o ++ rest)
      = PR.ok rest (o, pl - optW 4 o) := by
  rcases o with _ | v
  · have hk : k = Tsi.None := by simpa using hc
    subst hk
    simp [parseTsiField, optW, optBytes, List.nil_append]
  · have hk : ¬ k = Tsi.None := by simpa using hc
    have hv := hrange v rfl
    have hw4 : 4 ≤ pl := by simpa [optW] using hw
    simp only [parseTsiField, beU32p, PR.bind, optW, optBytes, List.length_append,
      u32Bytes_length, if_neg hk]
    rw [if_neg (by omega), wsub_of_le hw4 hb, beU32_u32Bytes v rest hv, drop4_u32Bytes]

theorem parseTsfField_built (k : Tsf) (pl : Nat) (o : Option Nat) (rest : List Nat)
    (hc : o.isSome = true ↔ k ≠ Tsf.None)
    (hrange : ∀ v, o = some v → v < 18446744073709551616)
    (hw : optW 8 o ≤ pl)
    (hb : pl < 18446744073709551616) :
    parseTsfField k pl (optBytes u64Bytes o ++ rest)
      = PR.ok rest (o, pl - optW 8 o) := by
  rcases o with _ | v
  · have hk : k = Tsf.None := by simpa using hc
    subst hk
    simp [parseTsfField, optW, optBytes, List.nil_append]
  · have hk : ¬ k = Tsf.None := by simpa using hc
    have hv := hrange v rfl
    have hw8 : 8 ≤ pl := by simpa [optW] using hw
    simp only [parseTsfField, beU64p, PR.bind, optW, optBytes, List.length_append,
      u64Bytes_length, if_neg hk]
    rw [if_neg (by omega), wsub_of_le hw8 hb, beU64_u64Bytes v rest hv, drop8_u64Bytes]

theorem parseTrailerField_built (t : Bool) (o : Option Trailer)
    (hc : o.isSome = t)
    (hrange : ∀ x, o = some x → x.words < 4294967296) :
    parseTrailerField t (optBytes Trailer.toBytes o)
      = PR.ok [] o := by
  rcases o with _ | x
  · have : t = false := by simpa using hc.symm
    subst this
    simp [parseTrailerField, optBytes]
  · have : t = true := by simpa using hc.symm
    subst this
    have hx := hrange x rfl
    simp only [parseTrailerField, Trailer.parse, Trailer.toBytes, PR.bind, optBytes,
      u32Bytes_length, if_true, ite_true]
    rw [if_neg (by omega)]
    have hdrop : (u32Bytes x.words).drop 4 = [] := rfl
    rw [hdrop, show beU32 (u32Bytes x.words) = x.words from by
      simpa using beU32_u32Bytes x.words [] hx]

/-- The header flags agree with which optional fields are populated — the
caller obligation `serialize` relies on: stream id present iff the packet
type is a stream-identified data variant, class id present iff `c`, tsi
present iff the tsi kind is not `None`, tsf present iff the tsf kind is not
`None`, trailer present iff `t`. -/
def VrtPacket.flagsConsistent (p : VrtPacket) : Prop :=
  (p.stream_id.isSome = true ↔
    (p.header.packet_type = PktType.IfDataWithStream ∨
     p.header.packet_type = PktType.ExtDataWithStream)) ∧
  (p.class_id.isSome = true ↔ p.header.c = true) ∧
  (p.tsi.isSome = true ↔ p.header.tsi ≠ Tsi.None) ∧
  (p.tsf.isSome = true ↔ p.header.tsf ≠ Tsf.None) ∧
  (p.trailer.isSome = true ↔ p.header.t = true)

/-- The populated field values fit their machine widths (`u32`/`u64` in the
source; the `Nat` model states the bounds explicitly). -/
def VrtPacket.valuesInRange (p : VrtPacket) : Prop :=
  (∀ v, p.stream_id = some v → v < 4294967296) ∧
  (∀ x, p.class_id = some x → x.words < 18446744073709551616) ∧
  (∀ v, p.tsi = some v → v < 4294967296) ∧
  (∀ v, p.tsf = some v → v < 18446744073709551616) ∧
  (∀ x, p.trailer = some x → x.words < 4294967296)

theorem restBytes_length (p : VrtPacket) : p.restBytes.length + 4 = p.totalBytes := by
  obtain ⟨hd, sid, cid, ti, tf, pl, tr⟩ := p
  rcases sid <;> rcases cid <;> rcases ti <;> rcases tf <;> rcases tr <;>
    simp [VrtPacket.restBytes, VrtPacket.totalBytes, optW, optBytes] <;> omega

theorem totalBytes_mod4 (p : VrtPacket) (h4 : p.payload.length % 4 = 0) :
    p.totalBytes % 4 = 0 := by
  obtain ⟨hd, sid, cid, ti, tf, pl, tr⟩ := p
  rcases sid <;> rcases cid <;> rcases ti <;> rcases tf <;> rcases tr <;>
    simp only [VrtPacket.totalBytes, optW] <;> simp only at h4 ⊢ <;> omega

/-- Parsing the body bytes of a size-patched, flag-consistent packet
recovers the packet exactly, consuming the whole byte string. -/
theorem parse_sized_bodyBytes (p : VrtPacket)
    (hf : p.flagsConsistent) (hr : p.valuesInRange)
    (h4 : p.payload.length % 4 = 0)
    (hfit : p.totalBytes / 4 < 65536) :
    VrtPacket.parse p.sized.bodyBytes = PR.ok [] p.sized := by
  have hge4 := totalBytes_ge4 p
  have hmod : p.totalBytes % 4 = 0 := totalBytes_mod4 p h4
  have hlen := restBytes_length p
  obtain ⟨hfS, hfC, hfI, hfF, hfT⟩ := hf
  obtain ⟨hrS, hrC, hrI, hrF, hrT⟩ := hr
  obtain ⟨⟨pt, c, t, ki, kf, ps0⟩, sid, cid, ti, tf, pl, tr⟩ := p
  simp only at hfS hfC hfI hfF hfT hrS hrC hrI hrF hrT h4
  have hc : c = cid.isSome := by rcases cid <;> simp_all
  have ht : t = tr.isSome := by rcases tr <;> simp_all
  subst hc
  subst ht
  have hsid : sid.isSome = ptStream pt := by
    rcases sid <;> cases pt <;> simp_all [ptStream]
  simp only [VrtPacket.sized, VrtPacket.bodyBytes, VrtPacket.totalBytes,
    VrtPacket.restBytes] at hmod hlen hfit hge4 ⊢
  have bS : optW 4 sid ≤ 4 := by rcases sid <;> simp [optW]
  have bC : optW 8 cid ≤ 8 := by rcases cid <;> simp [optW]
  have bI : optW 4 ti ≤ 4 := by rcases ti <;> simp [optW]
  have bF : optW 8 tf ≤ 8 := by rcases tf <;> simp [optW]
  have bT : optW 4 tr ≤ 4 := by rcases tr <;> simp [optW]
  set S := 4 + optW 4 sid + optW 8 cid + optW 4 ti + optW 8 tf + pl.length + optW 4 tr
    with hSdef
  unfold VrtPacket.parse
  rw [Header.parse_toBytes _ _ (by exact hfit)]
  simp only [PR.bind]
  rw [show S / 4 * 4 = S from by omega]
  rw [if_neg (by omega)]
  have hwS : wsub S 4 = S - 4 := wsub_of_le (by omega) (by omega)
  have htr2 : (if tr.isSome = true then wsub (wsub S 4) 4 else wsub S 4)
      = S - 4 - optW 4 tr := by
    rcases tr with _ | x
    · simp [optW, hwS]
    · simp only [Option.isSome, if_true, ite_true, hwS, optW]
      rw [wsub_of_le (by simp only [hSdef, optW]; omega) (by omega)]
  rw [htr2]
  rw [parseStreamField_built pt _ sid _ hsid hrS (by omega) (by omega)]
  simp only [PR.bind]
  rw [parseClassField_built cid.isSome _ cid _ rfl hrC (by omega) (by omega)]
  simp only [PR.bind]
  rw [parseTsiField_built ki _ ti _ hfI hrI (by omega) (by omega)]
  simp only [PR.bind]
  rw [parseTsfField_built kf _ tf _ hfF hrF (by omega) (by omega)]
  simp only [PR.bind]
  rw [show S - 4 - optW 4 tr - optW 4 sid - optW 8 cid - optW 4 ti - optW 8 tf
      = pl.length from by omega]
  rw [if_pos (by simp [List.length_append])]
  rw [List.take_left, List.drop_left]
  rw [parseTrailerField_built tr.isSome tr rfl hrT]

/-- A successful guarded result (the `split_at` panic guard) means the guard
held and the guarded computation itself succeeded. -/
theorem PR.ifcrash_ok_inv {α : Type} {c : Prop} [Decidable c] {x : PR α}
    {r : List Nat} {v : α} (h : (if c then x else PR.crash) = PR.ok r v) :
    x = PR.ok r v := by
  split at h
  · exact h
  · exact absurd h (by simp)

/-- A successful `PR.bind` factors through a successful first component. -/
theorem PR.bind_ok_inv {α β : Type} {x : PR α} {f : List Nat → α → PR β}
    {r : List Nat} {v : β} (h : PR.bind x f = PR.ok r v) :
    ∃ i a, x = PR.ok i a ∧ f i a = PR.ok r v := by
  cases x
  · exact ⟨_, _, rfl, h⟩
  all_goals simp [PR.bind] at h

theorem parseStreamField_ok_inv {pt : PktType} {pl : Nat} {i i2 : List Nat}
    {sp : Option Nat × Nat} (h : parseStreamField pt pl i = PR.ok i2 sp) :
    i2 = i.drop (ptW pt) ∧ sp.1 = (if ptStream pt then some (beU32 i) else none) := by
  cases pt <;>
    first
    | (simp only [parseStreamField] at h
       cases h
       exact ⟨by simp [ptW], by simp [ptStream]⟩)
    | (simp only [parseStreamField] at h
       obtain ⟨i3, a, hx, hf⟩ := PR.bind_ok_inv h
       cases hf
       unfold beU32p at hx
       split at hx
       · simp at hx
       · cases hx
         exact ⟨rfl, by simp [ptStream]⟩)

theorem parseClassField_ok_inv {c : Bool} {pl : Nat} {i i2 : List Nat}
    {cp : Option ClassId × Nat} (h : parseClassField c pl i = PR.ok i2 cp) :
    i2 = i.drop (if c then 8 else 0) ∧ cp.1 = (if c then some ⟨beU64 i⟩ else none) := by
  cases c
  · simp only [parseClassField, if_false, ite_false] at h
    cases h
    exact ⟨by simp, by simp⟩
  · simp only [parseClassField, if_true, ite_true] at h
    obtain ⟨i3, a, hx, hf⟩ := PR.bind_ok_inv h
    cases hf
    unfold ClassId.parse at hx
    split at hx
    · simp at hx
    · cases hx
      exact ⟨rfl, by simp⟩

theorem parseTsiField_ok_inv {k : Tsi} {pl : Nat} {i i2 : List Nat}
    {ip : Option Nat × Nat} (h : parseTsiField k pl i = PR.ok i2 ip) :
    i2 = i.drop (if k = Tsi.None then 0 else 4) ∧
    ip.1 = (if k = Tsi.None then none else some (beU32 i)) := by
  by_cases hk : k = Tsi.None
  · simp only [parseTsiField, hk, if_true, ite_true] at h
    cases h
    simp [hk]
  · simp only [parseTsiField, if_neg hk] at h
    obtain ⟨i3, a, hx, hf⟩ := PR.bind_ok_inv h
    cases hf
    unfold beU32p at hx
    split at hx
    · simp at hx
    · cases hx
      exact ⟨by simp [hk], by simp [hk]⟩

theorem parseTsfField_ok_inv {k : Tsf} {pl : Nat} {i i2 : List Nat}
    {fp : Option Nat × Nat} (h : parseTsfField k pl i = PR.ok i2 fp) :
    i2 = i.drop (if k = Tsf.None then 0 else 8) ∧
    fp.1 = (if k = Tsf.None then none else some (beU64 i)) := by
  by_cases hk : k = Tsf.None
  · simp only [parseTsfField, hk, if_true, ite_true] at h
    cases h
    simp [hk]
  · simp only [parseTsfField, if_neg hk] at h
    obtain ⟨i3, a, hx, hf⟩ := PR.bind_ok_inv h
    cases hf
    unfold beU64p at hx
    split at hx
    · simp at hx
    · cases hx
      exact ⟨by simp [hk], by simp [hk]⟩

theorem parseTrailerField_ok_inv {t : Bool} {i i2 : List Nat} {o : Option Trailer}
    (h : parseTrailerField t i = PR.ok i2 o) :
    o = (if t then some ⟨beU32 i⟩ else none) := by
  cases t
  · simp only [parseTrailerField, if_false, ite_false] at h
    cases h
    simp
  · simp only [parseTrailerField, if_true, ite_true] at h
    obtain ⟨i3, a, hx, hf⟩ := PR.bind_ok_inv h
    cases hf
    unfold Trailer.parse at hx
    split at hx
    · simp at hx
    · cases hx
      simp

instance {ε α : Type} [DecidableEq ε] [DecidableEq α] : DecidableEq (Except ε α)
  | .ok a, .ok b =>
    match decEq a b with
    | .isTrue h => .isTrue (by rw [h])
    | .isFalse h => .isFalse fun hh => h (Except.ok.inj hh)
  | .error a, .error b =>
    match decEq a b with
    | .isTrue h => .isTrue (by rw [h])
    | .isFalse h => .isFalse fun hh => h (Except.error.inj hh)
  | .ok _, .error _ => .isFalse Except.noConfusion
  | .error _, .ok _ => .isFalse Except.noConfusion

instance (p : VrtPacket) : Decidable p.flagsConsistent := by
  unfold VrtPacket.flagsConsistent
  infer_instance

/-- Whether a serialize result is a success. -/
def exOk : Except Error (Nat × List Nat) → Bool
  | .ok _ => true
  | .error _ => false

/-- Concrete packet exhibiting the round-trip failure: a one-byte payload. -/
def pC1 : VrtPacket :=
  ⟨⟨PktType.IfDataWithoutStream, false, false, Tsi.None, Tsf.None, 0⟩,
    none, none, none, none, [7], none⟩

/-- Claim C1 as stated is false: serializing the flag-consistent packet `pC1`
(one payload byte) into a 16-byte buffer succeeds writing `[0,0,0,1,7]`, but
parsing those bytes yields an empty payload — the truncated `packet_size`
drops the byte — so `decode (encode p)` differs from `p` both before and
after the size patch. -/
theorem claim_C1_counterexample :
    pC1.serialize 16 = (Except.ok (5, [0, 0, 0, 1, 7]), pC1.sized) ∧
    VrtPacket.parse [0, 0, 0, 1, 7]
      = PR.ok [7]
          ⟨⟨PktType.IfDataWithoutStream, false, false, Tsi.None, Tsf.None, 1⟩,
            none, none, none, none, [], none⟩ ∧
    VrtPacket.parse [0, 0, 0, 1, 7] ≠ PR.ok [7] pC1 ∧
    VrtPacket.parse [0, 0, 0, 1, 7] ≠ PR.ok [7] pC1.sized := by
  exact ⟨by decide, by decide, by decide, by decide⟩

/-- Claim C1 (amended): for a packet with internally consistent header flags,
machine-width field values, and a payload whose byte length is a multiple
of 4, whose word count fits the 16-bit size field, serialized into a
sufficiently large buffer, parsing the written bytes succeeds and returns
exactly the serialized packet — which is `p` itself except that
`header.packet_size` now holds the written word count. -/
theorem claim_C1_roundtrip (p : VrtPacket) (cap : Nat)
    (hf : p.flagsConsistent) (hr : p.valuesInRange)
    (h4 : p.payload.length % 4 = 0)
    (hfit : p.totalBytes / 4 < 65536)
    (hcap : p.totalBytes ≤ cap) :
    p.serialize cap = (Except.ok (p.totalBytes, p.sized.bodyBytes), p.sized) ∧
    VrtPacket.parse p.sized.bodyBytes = PR.ok [] p.sized ∧
    p.sized = { p with header := { p.header with packet_size := p.totalBytes / 4 } } := by
  refine ⟨?_, parse_sized_bodyBytes p hf hr h4 hfit, rfl⟩
  rw [serialize_char, if_neg (by omega), if_pos hfit]

/-- Concrete packet with every optional field populated, exercising the
amended round-trip. -/
def pC1w : VrtPacket :=
  ⟨⟨PktType.IfDataWithStream, true, true, Tsi.Utc, Tsf.SampleCount, 0⟩,
    some 5, some ⟨9⟩, some 3, some 2, [1, 2, 3, 4], some ⟨6⟩⟩

theorem claim_C1_roundtrip_witness :
    pC1w.serialize 36 = (Except.ok (pC1w.totalBytes, pC1w.sized.bodyBytes), pC1w.sized) ∧
    VrtPacket.parse pC1w.sized.bodyBytes = PR.ok [] pC1w.sized ∧
    pC1w.sized
      = { pC1w with header := { pC1w.header with packet_size := pC1w.totalBytes / 4 } } :=
  claim_C1_roundtrip pC1w 36 (by decide)
    (by refine ⟨?_, ?_, ?_, ?_, ?_⟩ <;> (rintro x hx; cases hx; decide))
    (by decide) (by decide) (by decide)

/-- Concrete packet exhibiting the size-invariant failure: a 3-byte payload. -/
def pC2 : VrtPacket :=
  ⟨⟨PktType.IfDataWithoutStream, false, false, Tsi.None, Tsf.None, 0⟩,
    none, none, none, none, [9, 9, 9], none⟩

/-- Claim C2 as stated is false: serializing `pC2` (three payload bytes)
returns `Ok(7)` bytes written, but the stored `packet_size` is the truncated
`7 / 4 = 1`, and `1 * 4 ≠ 7`. -/
theorem claim_C2_counterexample :
    pC2.serialize 16 = (Except.ok (7, [0, 0, 0, 1, 9, 9, 9]), pC2.sized) ∧
    pC2.sized.header.packet_size * 4 ≠ 7 := by
  exact ⟨by decide, by decide⟩

/-- Claim C2 (amended): whenever the payload length is a multiple of 4 —
which is the only payload shape for which every field width is a multiple
of 4, as the spec assumes — a successful `serialize` leaves
`packet_size * 4 = bytes_written`, for every combination of optional
fields and every buffer. -/
theorem claim_C2_size_invariant (p : VrtPacket) (cap n : Nat) (out : List Nat)
    (p2 : VrtPacket) (h4 : p.payload.length % 4 = 0)
    (hs : p.serialize cap = (Except.ok (n, out), p2)) :
    p2.header.packet_size * 4 = n := by
  rw [serialize_char] at hs
  split_ifs at hs with h1 h2
  · simp at hs
  · have hm := totalBytes_mod4 p h4
    cases hs
    simp only [VrtPacket.sized]
    omega
  · simp at hs

/-- Concrete empty-payload packet for the size-invariant witness. -/
def pC2w : VrtPacket :=
  ⟨⟨PktType.IfDataWithoutStream, false, false, Tsi.None, Tsf.None, 0⟩,
    none, none, none, none, [], none⟩

theorem claim_C2_witness : pC2w.sized.header.packet_size * 4 = 4 :=
  claim_C2_size_invariant pC2w 8 4 [0, 0, 0, 1] pC2w.sized (by decide) (by decide)

/-- Claim C3: the header `[4,0,0,1]` parses (trailer flag set,
`packet_size = 1`), its declared size is inconsistent with its own trailer
flag, and `parse` panics on it — the unchecked `payload_len` budget
subtraction wraps and `split_at` goes out of bounds — instead of returning
the malformed-packet error the claim requires. -/
theorem claim_C3_underflow_crash :
    Header.parse [4, 0, 0, 1]
      = PR.ok [] ⟨PktType.IfDataWithoutStream, false, true, Tsi.None, Tsf.None, 1⟩ ∧
    ¬ Header.sizeConsistent
        ⟨PktType.IfDataWithoutStream, false, true, Tsi.None, Tsf.None, 1⟩ ∧
    VrtPacket.parse [4, 0, 0, 1] = PR.crash := by
  exact ⟨by decide, by decide, by decide⟩

/-- Claim C4: once the header parses, an available byte count (remaining
input plus the 4 consumed header bytes) strictly below the declared
`packet_size * 4` yields `Incomplete` carrying exactly `packet_size * 4`;
with at least that many bytes available and a flag-consistent size, parse
succeeds. -/
theorem claim_C4_incomplete (input i : List Nat) (h : Header)
    (hp : Header.parse input = PR.ok i h) :
    (i.length + 4 < h.packet_size * 4 →
      VrtPacket.parse input = PR.incomplete (h.packet_size * 4)) ∧
    (h.packet_size * 4 ≤ i.length + 4 → h.sizeConsistent →
      VrtPacket.parse input
        = PR.ok (input.drop (h.packet_size * 4)) (expectedPacket h i)) := by
  constructor
  · intro hlt
    unfold VrtPacket.parse
    rw [hp]
    simp only [PR.bind]
    rw [if_pos hlt]
  · intro ha hc
    exact parse_ok_char input i h hp hc ha

theorem claim_C4_witness :
    VrtPacket.parse [0, 0, 0, 3, 9, 9] = PR.incomplete 12 ∧
    VrtPacket.parse [0, 0, 0, 1]
      = PR.ok (List.drop 4 [0, 0, 0, 1])
          (expectedPacket
            ⟨PktType.IfDataWithoutStream, false, false, Tsi.None, Tsf.None, 1⟩ []) :=
  ⟨(claim_C4_incomplete [0, 0, 0, 3, 9, 9] [9, 9]
      ⟨PktType.IfDataWithoutStream, false, false, Tsi.None, Tsf.None, 3⟩
      (by decide)).1 (by decide),
   (claim_C4_incomplete [0, 0, 0, 1] []
      ⟨PktType.IfDataWithoutStream, false, false, Tsi.None, Tsf.None, 1⟩
      (by decide)).2 (by decide) (by decide)⟩

/-- Claim C5: on every successful parse, the optional fields come from the
front of the input strictly in the order stream id, class id, tsi, tsf —
each value is read at the offset the preceding present fields dictate —
each present exactly when its header condition holds, and each absent field
is `none`, never a zero value. -/
theorem claim_C5_field_order (input rest : List Nat) (q : VrtPacket)
    (hp : VrtPacket.parse input = PR.ok rest q) :
    q.stream_id
      = (if ptStream q.header.packet_type then some (beU32 (input.drop 4)) else none) ∧
    q.class_id
      = (if q.header.c then
          some ⟨beU64 ((input.drop 4).drop (ptW q.header.packet_type))⟩ else none) ∧
    q.tsi
      = (if q.header.tsi = Tsi.None then none
         else some (beU32 (((input.drop 4).drop (ptW q.header.packet_type)).drop
           (if q.header.c then 8 else 0)))) ∧
    q.tsf
      = (if q.header.tsf = Tsf.None then none
         else some (beU64 ((((input.drop 4).drop (ptW q.header.packet_type)).drop
           (if q.header.c then 8 else 0)).drop
           (if q.header.tsi = Tsi.None then 0 else 4)))) := by
  unfold VrtPacket.parse at hp
  obtain ⟨i, hdr, hh, hp⟩ := PR.bind_ok_inv hp
  obtain ⟨hi, hps, hl4⟩ := Header.parse_ok_inv hh
  subst hi
  simp only [] at hp
  split at hp
  · exact absurd hp (by simp)
  · obtain ⟨i1, sp, hsf, hp⟩ := PR.bind_ok_inv hp
    obtain ⟨hi1, hsp⟩ := parseStreamField_ok_inv hsf
    subst hi1
    obtain ⟨i2, cp, hcf, hp⟩ := PR.bind_ok_inv hp
    obtain ⟨hi2, hcp⟩ := parseClassField_ok_inv hcf
    subst hi2
    obtain ⟨i3, ip, hif, hp⟩ := PR.bind_ok_inv hp
    obtain ⟨hi3, hip⟩ := parseTsiField_ok_inv hif
    subst hi3
    obtain ⟨i4, fp, hff, hp⟩ := PR.bind_ok_inv hp
    obtain ⟨hi4, hfp⟩ := parseTsfField_ok_inv hff
    subst hi4
    replace hp := PR.ifcrash_ok_inv hp
    obtain ⟨i5, o, htf, hp⟩ := PR.bind_ok_inv hp
    cases hp
    exact ⟨hsp, hcp, hip, hfp⟩

/-- Concrete all-fields input for the field-order witness. -/
def inputC5 : List Nat :=
  [24, 80, 0, 7, 0, 0, 0, 5, 0, 0, 0, 0, 0, 0, 0, 9, 0, 0, 0, 3,
   0, 0, 0, 0, 0, 0, 0, 2]

/-- The packet `inputC5` parses to. -/
def qC5 : VrtPacket :=
  ⟨⟨PktType.IfDataWithStream, true, false, Tsi.Utc, Tsf.SampleCount, 7⟩,
    some 5, some ⟨9⟩, some 3, some 2, [], none⟩

theorem claim_C5_witness :
    qC5.stream_id
      = (if ptStream qC5.header.packet_type then some (beU32 (inputC5.drop 4)) else none) ∧
    qC5.class_id
      = (if qC5.header.c then
          some ⟨beU64 ((inputC5.drop 4).drop (ptW qC5.header.packet_type))⟩ else none) ∧
    qC5.tsi
      = (if qC5.header.tsi = Tsi.None then none
         else some (beU32 (((inputC5.drop 4).drop (ptW qC5.header.packet_type)).drop
           (if qC5.header.c then 8 else 0)))) ∧
    qC5.tsf
      = (if qC5.header.tsf = Tsf.None then none
         else some (beU64 ((((inputC5.drop 4).drop (ptW qC5.header.packet_type)).drop
           (if qC5.header.c then 8 else 0)).drop
           (if qC5.header.tsi = Tsi.None then 0 else 4)))) :=
  claim_C5_field_order inputC5 [] qC5 (by decide)

/-- Claim C6: a well-formed input of at least `packet_size * 4` bytes parses
successfully consuming exactly `packet_size * 4` bytes — the returned
remainder is the input suffix at that offset, supporting back-to-back
packets — and the payload is the contiguous input subslice between the last
present front field and the trailer position. -/
theorem claim_C6_exact_consumption (input i : List Nat) (h : Header)
    (hp : Header.parse input = PR.ok i h)
    (hc : h.sizeConsistent)
    (ha : h.packet_size * 4 ≤ i.length + 4) :
    VrtPacket.parse input = PR.ok (input.drop (h.packet_size * 4)) (expectedPacket h i) ∧
    (expectedPacket h i).payload
      = (input.drop (4 + h.streamW + h.classW + h.tsiW + h.tsfW)).take
          (h.packet_size * 4 - (4 + h.streamW + h.classW + h.tsiW + h.tsfW)
            - h.trailW) := by
  refine ⟨parse_ok_char input i h hp hc ha, ?_⟩
  obtain ⟨hi, hps, hl⟩ := Header.parse_ok_inv hp
  subst hi
  simp only [expectedPacket, Header.streamW, List.drop_drop]
  congr 1
  omega

theorem claim_C6_witness :
    VrtPacket.parse [0, 0, 0, 3, 1, 2, 3, 4, 5, 6, 7, 8, 77, 88]
      = PR.ok (List.drop 12 [0, 0, 0, 3, 1, 2, 3, 4, 5, 6, 7, 8, 77, 88])
          (expectedPacket
            ⟨PktType.IfDataWithoutStream, false, false, Tsi.None, Tsf.None, 3⟩
            [1, 2, 3, 4, 5, 6, 7, 8, 77, 88]) ∧
    (expectedPacket
        ⟨PktType.IfDataWithoutStream, false, false, Tsi.None, Tsf.None, 3⟩
        [1, 2, 3, 4, 5, 6, 7, 8, 77, 88]).payload
      = (List.drop 4 [0, 0, 0, 3, 1, 2, 3, 4, 5, 6, 7, 8, 77, 88]).take 8 :=
  claim_C6_exact_consumption [0, 0, 0, 3, 1, 2, 3, 4, 5, 6, 7, 8, 77, 88]
    [1, 2, 3, 4, 5, 6, 7, 8, 77, 88]
    ⟨PktType.IfDataWithoutStream, false, false, Tsi.None, Tsf.None, 3⟩
    (by decide) (by decide) (by decide)

/-- Claim C7: the 12-byte plain data packet with `packet_size = 3` and no
optional fields parses to an 8-byte payload; the 16-byte variant with the
trailer flag set and `packet_size = 4` parses to the same 8-byte payload
plus a trailer taken from the last 4 bytes. -/
theorem claim_C7_concrete :
    VrtPacket.parse [0, 0, 0, 3, 1, 2, 3, 4, 5, 6, 7, 8]
      = PR.ok []
          ⟨⟨PktType.IfDataWithoutStream, false, false, Tsi.None, Tsf.None, 3⟩,
            none, none, none, none, [1, 2, 3, 4, 5, 6, 7, 8], none⟩ ∧
    VrtPacket.parse [4, 0, 0, 4, 1, 2, 3, 4, 5, 6, 7, 8, 0, 0, 0, 9]
      = PR.ok []
          ⟨⟨PktType.IfDataWithoutStream, false, true, Tsi.None, Tsf.None, 4⟩,
            none, none, none, none, [1, 2, 3, 4, 5, 6, 7, 8], some ⟨9⟩⟩ := by
  exact ⟨by decide, by decide⟩

/-- Claim C8: a destination buffer too small for the serialized form makes
`serialize` return the distinguishable `Error::BufferFull` (leaving the
packet unchanged, no panic); a buffer that holds the whole form, when the
word count fits the size field, makes it succeed — so it never returns
`BufferFull` then. -/
theorem claim_C8_buffer (p : VrtPacket) (cap : Nat) :
    (cap < p.totalBytes → p.serialize cap = (Except.error Error.BufferFull, p)) ∧
    (p.totalBytes ≤ cap → p.totalBytes / 4 < 65536 →
      p.serialize cap = (Except.ok (p.totalBytes, p.sized.bodyBytes), p.sized)) := by
  constructor
  · intro h1
    rw [serialize_char, if_pos h1]
  · intro h1 h2
    rw [serialize_char, if_neg (by omega), if_pos h2]

/-- Concrete packet with a 4-byte payload for the buffer-error witness. -/
def pC8 : VrtPacket :=
  ⟨⟨PktType.IfDataWithoutStream, false, false, Tsi.None, Tsf.None, 0⟩,
    none, none, none, none, [1, 2, 3, 4], none⟩

theorem claim_C8_witness :
    pC8.serialize 5 = (Except.error Error.BufferFull, pC8) ∧
    pC8.serialize 8 = (Except.ok (pC8.totalBytes, pC8.sized.bodyBytes), pC8.sized) :=
  ⟨(claim_C8_buffer pC8 5).1 (by decide),
   (claim_C8_buffer pC8 8).2 (by decide) (by decide)⟩

/-- Claim C9: when the written word count would not fit the 16-bit size
field, `serialize` never succeeds — with a large enough buffer it returns
`Error::SizeOverflow` rather than storing a truncated count, and with a
small buffer it still fails (with the buffer error), so no wrapped count is
ever stored on a success path. -/
theorem claim_C9_overflow (p : VrtPacket) (cap : Nat)
    (hbig : 65536 ≤ p.totalBytes / 4) :
    exOk (p.serialize cap).1 = false ∧
    (p.totalBytes ≤ cap → p.serialize cap = (Except.error Error.SizeOverflow, p)) := by
  rw [serialize_char]
  by_cases h1 : cap < p.totalBytes
  · rw [if_pos h1]
    exact ⟨rfl, fun h => absurd h (by omega)⟩
  · rw [if_neg h1, if_neg (by omega)]
    exact ⟨rfl, fun _ => rfl⟩

/-- Concrete oversized packet (65536 words) for the overflow witness. -/
def pC9 : VrtPacket :=
  ⟨⟨PktType.IfDataWithoutStream, false, false, Tsi.None, Tsf.None, 0⟩,
    none, none, none, none, List.replicate 262140 0, none⟩

theorem pC9_payload_length : pC9.payload.length = 262140 := by
  unfold pC9
  exact List.length_replicate 262140 0

theorem pC9_totalBytes : pC9.totalBytes = 262144 := by
  rw [VrtPacket.totalBytes, show pC9.stream_id = none from rfl,
    show pC9.class_id = none from rfl, show pC9.tsi = none from rfl,
    show pC9.tsf = none from rfl, show pC9.trailer = none from rfl,
    pC9_payload_length]
  decide

theorem claim_C9_witness :
    pC9.serialize 262144 = (Except.error Error.SizeOverflow, pC9) :=
  (claim_C9_overflow pC9 262144 (by rw [pC9_totalBytes])).2
    (by rw [pC9_totalBytes])

/-- Claim C10: whenever `serialize` returns an error, the packet is left
unchanged — in particular `header.packet_size` still holds its pre-call
value, since the size field is only assigned after every write succeeded. -/
theorem claim_C10_error_preserves (p : VrtPacket) (cap : Nat) (e : Error)
    (h : (p.serialize cap).1 = Except.error e) : (p.serialize cap).2 = p := by
  rw [serialize_char] at h ⊢
  split_ifs at h ⊢ <;> rfl

/-- Concrete empty packet for the error-preservation witness. -/
def pC10 : VrtPacket :=
  ⟨⟨PktType.IfDataWithoutStream, false, false, Tsi.None, Tsf.None, 7⟩,
    none, none, none, none, [], none⟩

theorem claim_C10_witness : (pC10.serialize 0).2 = pC10 :=
  claim_C10_error_preserves pC10 0 Error.BufferFull (by decide)

end Vrt
